import Mathlib

/-!
# Verification of the mgdcli manga downloader

Shallow embedding of the mgdcli repository (src/lib.rs, src/query.rs,
src/service.rs, src/bin/mgdm.rs) in Lean 4, together with theorems settling
the specification claims.

Modelling conventions:
* Rust `f32` values are modelled by the type `F32` below: finite values are
  exact rationals (rounding is abstracted away; none of the verified
  properties depend on rounding), plus `inf`, `negInf` and a single `nan`
  constructor standing for positive NaN (the value produced by parsing
  "nan"; the sign of NaN is collapsed since no code path distinguishes it).
* `HashMap` values are modelled as lists in iteration order, which the code
  treats as arbitrary (keys are unused downstream).
* Network and filesystem effects are modelled by explicit outcome values:
  a page download is an `Except MangadexError Unit`, and the set of files
  written is derived from the per-page outcomes.
-/

/-- The error enumeration from src/lib.rs (`MangadexError`).  Payloads are
modelled as strings (the underlying `reqwest`/`serde_json`/`io` errors carry
no structure the core logic inspects). -/
inductive MangadexError where
  | RequestError : String → MangadexError
  | DeserializeError : String → MangadexError
  | IoError : String → MangadexError
  | UrlParseError : String → MangadexError
deriving DecidableEq, Repr

/-- Model of Rust `f32` for the label/filter logic: exact rationals for
finite values, plus infinities and (positive) NaN. -/
inductive F32 where
  | finite : ℚ → F32
  | inf : F32
  | negInf : F32
  | nan : F32
deriving DecidableEq, Repr

namespace F32

/-- IEEE-754 `<=` on `F32` (Rust `f32::le`): any comparison involving NaN
is false. -/
def le : F32 → F32 → Bool
  | .nan, _ => false
  | _, .nan => false
  | .negInf, _ => true
  | _, .negInf => false
  | _, .inf => true
  | .inf, _ => false
  | .finite a, .finite b => decide (a ≤ b)

/-- IEEE-754 `==` on `F32` (Rust `PartialEq for f32`): NaN is equal to
nothing, including itself. -/
def beq : F32 → F32 → Bool
  | .nan, _ => false
  | _, .nan => false
  | .inf, .inf => true
  | .negInf, .negInf => true
  | .finite a, .finite b => decide (a = b)
  | _, _ => false

/-- Rust `f32::total_cmp`: the IEEE-754 totalOrder predicate.  With the
single (positive) `nan` constructor the order is
`negInf < finite _ < inf < nan`. -/
def totalCmp : F32 → F32 → Ordering
  | .negInf, .negInf => .eq
  | .negInf, _ => .lt
  | _, .negInf => .gt
  | .finite a, .finite b => compare a b
  | .finite _, _ => .lt
  | _, .finite _ => .gt
  | .inf, .inf => .eq
  | .inf, .nan => .lt
  | .nan, .inf => .gt
  | .nan, .nan => .eq

/-- Whether an `F32` is a finite value. -/
def isFinite : F32 → Bool
  | .finite _ => true
  | _ => false

end F32

/-! ## The string-to-f32 parser (Rust `f32::from_str`)

`deserialize_number_from_string` in src/query.rs does
`raw.parse::<f32>().ok()`.  Rust's float grammar is
`Sign? ('inf' | 'infinity' | 'nan' | Number)` case-insensitively, where
`Number` is digits with an optional fraction part and optional exponent.
We model the accepted language exactly and the finite values as exact
rationals (rounding to the nearest `f32`, including overflow to infinity
for huge literals, is abstracted). -/

/-- Longest leading run of ASCII digits, and the rest. -/
def takeDigits : List Char → List Char × List Char
  | [] => ([], [])
  | c :: cs =>
    if c.isDigit then
      let (d, r) := takeDigits cs
      (c :: d, r)
    else ([], c :: cs)

/-- Numeric value of a digit string (most significant first). -/
def digitsVal (ds : List Char) : ℕ :=
  ds.foldl (fun acc c => 10 * acc + (c.toNat - '0'.toNat)) 0

/-- `10 ^ e` for an integer exponent, as a rational. -/
def tenPow (e : ℤ) : ℚ :=
  if 0 ≤ e then ((10 : ℚ) ^ e.toNat) else 1 / (10 : ℚ) ^ (-e).toNat

/-- Parse the exponent suffix (`e`/`E`, optional sign, digits) which must
consume the whole remaining input; empty input means exponent `0`. -/
def parseExp : List Char → Option ℤ
  | [] => some 0
  | c :: cs =>
    if c = 'e' ∨ c = 'E' then
      let (sgn, body) :=
        match cs with
        | '+' :: t => ((1 : ℤ), t)
        | '-' :: t => ((-1 : ℤ), t)
        | t => ((1 : ℤ), t)
      let (ds, rest) := takeDigits body
      if ds = [] ∨ rest ≠ [] then none
      else some (sgn * (digitsVal ds : ℤ))
    else none

/-- Parse an unsigned decimal number (`Digit+ '.'? Digit* Exp?` or
`'.' Digit+ Exp?`), exactly Rust's `Number` production. -/
def parseNumber (cs : List Char) : Option ℚ :=
  let (ip, r1) := takeDigits cs
  match r1 with
  | '.' :: r2 =>
    let (fp, r3) := takeDigits r2
    if ip = [] ∧ fp = [] then none
    else
      (parseExp r3).map fun e =>
        ((digitsVal ip : ℚ) + (digitsVal fp : ℚ) / (10 : ℚ) ^ fp.length) * tenPow e
  | r =>
    if ip = [] then none
    else (parseExp r).map fun e => (digitsVal ip : ℚ) * tenPow e

/-- Split off the optional leading sign: returns whether the value is
negated and the remaining characters. -/
def stripSign : List Char → Bool × List Char
  | '+' :: t => (false, t)
  | '-' :: t => (true, t)
  | t => (false, t)

/-- Parse the sign-stripped body: one of the special tokens
`inf`/`infinity`/`nan` (already lowercased) or a decimal number. -/
def parseBody (neg : Bool) (body : List Char) : Option F32 :=
  if body = ['i', 'n', 'f'] ∨ body = ['i', 'n', 'f', 'i', 'n', 'i', 't', 'y'] then
    some (if neg then F32.negInf else F32.inf)
  else if body = ['n', 'a', 'n'] then
    some F32.nan
  else
    (parseNumber body).map fun q => F32.finite (if neg then -q else q)

/-- Model of Rust `"...".parse::<f32>().ok()`: optional sign, then one of
the special tokens `inf`/`infinity`/`nan` (case-insensitive) or a decimal
number.  A parse failure is `none`. -/
def parseF32 (raw : String) : Option F32 :=
  parseBody (stripSign (raw.toList.map Char.toLower)).1
    (stripSign (raw.toList.map Char.toLower)).2

/-- Whether the raw string is (up to sign and case) one of the special
float tokens `inf`/`infinity`/`nan`. -/
def specialFloatToken (raw : String) : Bool :=
  (stripSign (raw.toList.map Char.toLower)).2 = ['i', 'n', 'f'] ||
    (stripSign (raw.toList.map Char.toLower)).2 =
      ['i', 'n', 'f', 'i', 'n', 'i', 't', 'y'] ||
    (stripSign (raw.toList.map Char.toLower)).2 = ['n', 'a', 'n']

/-- src/query.rs `deserialize_number_from_string`: parse the raw string as
an `f32`, mapping failure to absence (`raw.parse::<f32>().ok()`). -/
def deserialize_number_from_string (raw : String) : Option F32 :=
  parseF32 raw

/-! ## Data model (src/query.rs) -/

/-- src/query.rs `Chapter`: optional numeric label, identifier, variant
count, alternate-variant identifiers. -/
structure Chapter where
  chapter : Option F32
  id : String
  count : ℕ
  others : List String
deriving DecidableEq, Repr

/-- src/query.rs `Volume`: optional numeric label, count, and its chapters.
The Rust field is a `HashMap<String, Chapter>`; only the values are used
downstream, in iteration order, so we model the values as a list. -/
structure Volume where
  volume : Option F32
  count : ℕ
  chapters : List Chapter
deriving DecidableEq, Repr

/-- src/query.rs `MangaQuery`. -/
structure MangaQuery where
  id : String
  groups : List String
  translated_language : List String
deriving DecidableEq, Repr

/-- src/query.rs `MangaQuery::new`. -/
def MangaQuery.new (id : String) : MangaQuery :=
  ⟨id, [], []⟩

/-! ## URL resolution (src/query.rs `MangaQuery::from_url`,
src/service.rs `ChapterDownloadRequest::from_url`)

The `url` crate's parsed form is modelled structurally: the domain (if
any), the path segments (if the URL is not cannot-be-a-base), and the
serialization `url.to_string()` that the error paths embed. -/

/-- A parsed URL as the resolver observes it. -/
structure ParsedUrl where
  domain : Option String
  pathSegments : Option (List String)
  toStr : String
deriving DecidableEq, Repr

/-- src/query.rs `MangaQuery::from_url`, after URL parsing succeeded:
domain must be exactly "mangadex.org", the first path segment must be
"title", and the second path segment is the identifier. -/
def MangaQuery.from_url (url : ParsedUrl) : Except MangadexError MangaQuery :=
  if ¬ url.domain = some "mangadex.org" then
    .error (.UrlParseError url.toStr)
  else
    match url.pathSegments with
    | some (s :: rest) =>
      if s = "title" then
        match rest with
        | id :: _ => .ok (MangaQuery.new id)
        | [] => .error (.UrlParseError url.toStr)
      else .error (.UrlParseError url.toStr)
    | some [] => .error (.UrlParseError url.toStr)
    | none => .error (.UrlParseError url.toStr)

/-! ## Chapter ordering (src/query.rs `get_chapters`) -/

/-- The comparator passed to `chapters.sort_by` in `get_chapters`:
absent labels are equal to each other and less than any present label;
present labels compare by `f32::total_cmp`. -/
def chapterCmp (x y : Chapter) : Ordering :=
  match x.chapter, y.chapter with
  | none, none => .eq
  | none, some _ => .lt
  | some _, none => .gt
  | some a, some b => a.totalCmp b

/-- Stable insertion of `x` into a sorted list: `x` is placed before the
first element not strictly below it.  Used to model Rust's stable
`sort_by` (for a total preorder comparator a stable sort's output is
unique, so this insertion sort agrees with Rust's merge sort). -/
def insertStable (cmp : Chapter → Chapter → Ordering) (x : Chapter) :
    List Chapter → List Chapter
  | [] => [x]
  | y :: ys =>
    if cmp y x = .lt then y :: insertStable cmp x ys else x :: y :: ys

/-- Stable sort by a comparator (model of Rust `slice::sort_by`). -/
def sortBy (cmp : Chapter → Chapter → Ordering) : List Chapter → List Chapter
  | [] => []
  | x :: xs => insertStable cmp x (sortBy cmp xs)

/-- src/query.rs `get_chapters`: flatten every chapter of the given
volumes, then sort with `chapterCmp`. -/
def getChapters (vs : List Volume) : List Chapter :=
  sortBy chapterCmp (vs.flatMap Volume.chapters)

/-! ## Chapter selection (src/bin/mgdm.rs, main, lines 90–126) -/

/-- The filter-relevant command-line arguments of mgdm. -/
structure Args where
  chapters : List F32
  volumes : List F32
  min_chapter : Option F32
  max_chapter : Option F32
  min_volume : Option F32
  max_volume : Option F32
deriving DecidableEq, Repr

/-- `Vec<f32>::contains` — membership by IEEE `==`. -/
def f32Contains (l : List F32) (y : F32) : Bool :=
  l.any fun e => e.beq y

/-- The filter closure of the explicit volume list branch:
`args.volumes.contains(&x.volume().unwrap_or(f32::INFINITY))`. -/
def volumeListPred (vols : List F32) (x : Volume) : Bool :=
  f32Contains vols (x.volume.getD F32.inf)

/-- The filter closure of the explicit chapter list branch:
`args.chapters.contains(&c.chapter().unwrap_or(f32::INFINITY))`. -/
def chapterListPred (chaps : List F32) (c : Chapter) : Bool :=
  f32Contains chaps (c.chapter.getD F32.inf)

/-- The filter closure of the chapter range branch:
`let c = c.chapter().unwrap_or(-1.0); c >= min_chap && c <= max_chap`
with unspecified bounds defaulting to `∓∞`. -/
def chapterRangePred (minC maxC : Option F32) (c : Chapter) : Bool :=
  let cv := c.chapter.getD (F32.finite (-1))
  (minC.getD F32.negInf).le cv && cv.le (maxC.getD F32.inf)

/-- The filter closure of the volume range branch:
`let v = v.volume().unwrap_or(-1.0); v >= min_vol && v <= max_vol`. -/
def volumeRangePred (minV maxV : Option F32) (v : Volume) : Bool :=
  let vv := v.volume.getD (F32.finite (-1))
  (minV.getD F32.negInf).le vv && vv.le (maxV.getD F32.inf)

/-- The chapter-selection `if` chain of mgdm's `main` (lines 90–126):
explicit volume list, else explicit chapter list, else chapter range (when
either bound is given), else volume range (with `∓∞` defaults, which is
the select-all default when no bound is given). -/
def selectChapters (args : Args) (manga_volumes : List Volume) : List Chapter :=
  if args.volumes ≠ [] then
    getChapters (manga_volumes.filter (volumeListPred args.volumes))
  else if args.chapters ≠ [] then
    (getChapters manga_volumes).filter (chapterListPred args.chapters)
  else if args.min_chapter.isSome || args.max_chapter.isSome then
    (getChapters manga_volumes).filter
      (chapterRangePred args.min_chapter args.max_chapter)
  else
    getChapters
      (manga_volumes.filter (volumeRangePred args.min_volume args.max_volume))

/-! ## The download request (src/service.rs `ChapterDownloadRequest`) -/

/-- src/service.rs `ChapterDownloadRequest`: identifier, quality flag,
destination directory (paths modelled as strings). -/
structure ChapterDownloadRequest where
  id : String
  data_saver : Bool
  path : String
deriving DecidableEq, Repr

namespace ChapterDownloadRequest

/-- src/service.rs `ChapterDownloadRequest::new`: quality defaults to
data-saver, destination defaults to the current directory. -/
def new (id : String) : ChapterDownloadRequest :=
  ⟨id, true, "."⟩

/-- src/service.rs `ChapterDownloadRequest::from_url`: same shape check as
`MangaQuery::from_url` but the first path segment must be "chapter". -/
def from_url (url : ParsedUrl) : Except MangadexError ChapterDownloadRequest :=
  if ¬ url.domain = some "mangadex.org" then
    .error (.UrlParseError url.toStr)
  else
    match url.pathSegments with
    | some (s :: rest) =>
      if s = "chapter" then
        match rest with
        | id :: _ => .ok (new id)
        | [] => .error (.UrlParseError url.toStr)
      else .error (.UrlParseError url.toStr)
    | some [] => .error (.UrlParseError url.toStr)
    | none => .error (.UrlParseError url.toStr)

/-- src/service.rs builder method `data_saver` (named `set_data_saver`
here because Lean forbids a method shadowing the field of the same name):
replaces only the quality flag. -/
def set_data_saver (r : ChapterDownloadRequest) (b : Bool) :
    ChapterDownloadRequest :=
  { r with data_saver := b }

/-- src/service.rs builder method `path` (named `set_path` here, see
`set_data_saver`): replaces only the destination. -/
def set_path (r : ChapterDownloadRequest) (p : String) :
    ChapterDownloadRequest :=
  { r with path := p }

end ChapterDownloadRequest

/-! ## The chapter page manifest (src/service.rs `ChapterData`) -/

/-- src/service.rs `ChapterDownloadData`: content hash and the two
parallel page-filename lists (original and compressed quality). -/
structure ChapterDownloadData where
  hash : String
  data : List String
  data_saver : List String
deriving DecidableEq, Repr

/-- src/service.rs `ChapterData`: base URL plus the download data. -/
structure ChapterData where
  base_url : String
  chapter : ChapterDownloadData
deriving DecidableEq, Repr

/-! ## Page file naming (src/service.rs `download_chapter`) -/

/-- Whether `pat` is an initial segment of `l` (character lists). -/
def listStartsWith : List Char → List Char → Bool
  | _, [] => true
  | [], _ :: _ => false
  | a :: as, b :: bs => a = b && listStartsWith as bs

/-- Whether `pat` occurs as a contiguous substring of `l`; models Rust
`str::contains` with a literal pattern. -/
def listHasSub : List Char → List Char → Bool
  | l, pat =>
    listStartsWith l pat ||
      match l with
      | [] => false
      | _ :: t => listHasSub t pat

/-- Rust `usize::checked_ilog10`: `none` for 0, else `⌊log₁₀ n⌋`. -/
def checkedIlog10 (n : ℕ) : Option ℕ :=
  if n = 0 then none else some (Nat.log 10 n)

/-- The padding width computed in `download_chapter`:
`chapter.chapter.data.len().checked_ilog10().unwrap_or(0) + 1`.
Note it is computed from the original-quality `data` list. -/
def paddingWidth (cd : ChapterData) : ℕ :=
  (checkedIlog10 cd.chapter.data.length).getD 0 + 1

/-- Zero-pad the decimal rendering of `n` to at least `width` characters,
as Rust's `format!("{n:0width$}")` does. -/
def zeroPad (width : ℕ) (n : ℕ) : String :=
  let s := toString n
  String.mk (List.replicate (width - s.length) '0') ++ s

/-- The extension rule of `download_chapter`: `.png` when the source
filename contains ".png", else `.jpg`. -/
def extFor (x : String) : String :=
  if listHasSub x.toList ['.', 'p', 'n', 'g'] then ".png" else ".jpg"

/-- The page list chosen by the quality flag
(`data_saver` ⇒ compressed list, otherwise the original list). -/
def chosenPages (cd : ChapterData) (data_saver : Bool) : List String :=
  if data_saver then cd.chapter.data_saver else cd.chapter.data

/-- The quality URL segment: "data-saver" or "data". -/
def qualitySegment (data_saver : Bool) : String :=
  if data_saver then "data-saver" else "data"

/-- The download URL built for one page:
`{baseUrl}/{quality}/{hash}/{filename}`. -/
def pageUrl (cd : ChapterData) (data_saver : Bool) (x : String) : String :=
  cd.base_url ++ "/" ++ qualitySegment data_saver ++ "/" ++
    cd.chapter.hash ++ "/" ++ x

/-- The destination filename of page `i` with source filename `x`:
`page_{i:0width$}{ext}`. -/
def pageFileName (width i : ℕ) (x : String) : String :=
  "page_" ++ zeroPad width i ++ extFor x

/-- The ordered list of destination filenames produced by
`download_chapter` for a manifest and quality flag (the enumeration of the
chosen list, each formatted with `paddingWidth`). -/
def pageFileNames (cd : ChapterData) (data_saver : Bool) : List String :=
  (chosenPages cd data_saver).enum.map fun ix =>
    pageFileName (paddingWidth cd) ix.1 ix.2

/-! ## Failure aggregation (src/service.rs `download_chapter`, lines
155–163)

`join_all` runs every page future to completion and yields the results in
the original (enumeration) order; `.find(|x| x.is_err())` then picks the
first error in that order.  A page's outcome is modelled as an
`Except MangadexError Unit`; the file of page `i` is on disk afterwards
exactly when outcome `i` is `ok` (siblings are never cancelled). -/

/-- Whether a page outcome is an error (Rust `Result::is_err`). -/
def isErrB : Except MangadexError Unit → Bool
  | .error _ => true
  | .ok _ => false

/-- The aggregation at the end of `download_chapter`: the first error in
enumeration order if any page failed, otherwise success. -/
def aggregatePageResults (rs : List (Except MangadexError Unit)) :
    Except MangadexError Unit :=
  match rs.find? isErrB with
  | some e => e
  | none => .ok ()

/-- The indices of the pages whose file was written: exactly those whose
own download succeeded, independent of any sibling's outcome. -/
def writtenPages (rs : List (Except MangadexError Unit)) : List ℕ :=
  (List.range rs.length).filter fun i =>
    match rs.get? i with
    | some (.ok _) => true
    | _ => false

/-! ## The admission gate (rate limiting)

mgdm composes the downloader with `tower`'s rate limiter
(`ServiceBuilder::new().rate_limit(1, Duration::…)`); the limiter's code
lives in the external `tower` crate, not in this repository. -/

/-- Modelled from the spec: the throttling decorator of §4.4 — the tower
`rate_limit` layer is not part of src/.  `num` admissions are allowed per
window of `per` time units; `ready()` suspends until the window permits.
State: when the current window began and how many admissions it has
granted. -/
structure RateLimiter where
  num : ℕ
  per : ℕ
  windowStart : ℕ
  used : ℕ
deriving DecidableEq, Repr

namespace RateLimiter

/-- A fresh limiter configured for `n` admissions per `t` units, whose
first window starts at `now`. -/
def init (n t now : ℕ) : RateLimiter :=
  ⟨n, t, now, 0⟩

/-- Modelled from the spec: `ready()` called at time `now` returns the
admission time (the moment the matching `call()` may start) and the new
limiter state.  If the window has elapsed a new one starts immediately;
if the window still has budget the call is admitted at once; otherwise
the caller suspends until the window ends. -/
def ready (rl : RateLimiter) (now : ℕ) : ℕ × RateLimiter :=
  if rl.windowStart + rl.per ≤ now then
    (now, { rl with windowStart := now, used := 1 })
  else if rl.used < rl.num then
    (now, { rl with used := rl.used + 1 })
  else
    (rl.windowStart + rl.per,
      { rl with windowStart := rl.windowStart + rl.per, used := 1 })

end RateLimiter

/-- Modelled from the spec: the decorator does not alter `call()` itself —
it only gates admission, so the decorated call applies the wrapped
service's call unchanged. -/
def throttledCall {α β : Type} (call : α → β) (req : α) : β :=
  call req

/-! # Theorems for the specification claims -/

/-- Claim C10: `ChapterDownloadRequest::new(id)` yields the given id with
`data_saver = true` and destination `"."`; the `data_saver` builder method
changes only the quality flag, the `path` builder method changes only the
destination, and no operation changes the id after construction. -/
theorem chapter_download_request_builder (id : String)
    (r : ChapterDownloadRequest) (b : Bool) (p : String) :
    (ChapterDownloadRequest.new id).id = id ∧
    (ChapterDownloadRequest.new id).data_saver = true ∧
    (ChapterDownloadRequest.new id).path = "." ∧
    (r.set_data_saver b).id = r.id ∧
    (r.set_data_saver b).data_saver = b ∧
    (r.set_data_saver b).path = r.path ∧
    (r.set_path p).id = r.id ∧
    (r.set_path p).data_saver = r.data_saver ∧
    (r.set_path p).path = p :=
  ⟨rfl, rfl, rfl, rfl, rfl, rfl, rfl, rfl, rfl⟩

/-- Claim C5: a structured link `{host}/title/{id}/...` with the expected
host resolves to exactly `{id}`; a wrong host, a wrong first path segment
("chapter" to the manga resolver and vice versa), or a missing second
segment fails with the invalid-reference error (`UrlParseError`) carrying
the offending input; resolution is a pure function (no network access). -/
theorem from_url_resolution :
    (∀ id rest s,
      MangaQuery.from_url ⟨some "mangadex.org", some ("title" :: id :: rest), s⟩ =
        .ok (MangaQuery.new id)) ∧
    (∀ url : ParsedUrl, url.domain ≠ some "mangadex.org" →
      MangaQuery.from_url url = .error (.UrlParseError url.toStr)) ∧
    (∀ (url : ParsedUrl) s0 rest, url.domain = some "mangadex.org" →
      url.pathSegments = some (s0 :: rest) → s0 ≠ "title" →
      MangaQuery.from_url url = .error (.UrlParseError url.toStr)) ∧
    (∀ url : ParsedUrl, url.domain = some "mangadex.org" →
      url.pathSegments = some ["title"] →
      MangaQuery.from_url url = .error (.UrlParseError url.toStr)) ∧
    (∀ id rest s,
      ChapterDownloadRequest.from_url
          ⟨some "mangadex.org", some ("chapter" :: id :: rest), s⟩ =
        .ok (ChapterDownloadRequest.new id)) ∧
    (∀ url : ParsedUrl, url.domain ≠ some "mangadex.org" →
      ChapterDownloadRequest.from_url url = .error (.UrlParseError url.toStr)) ∧
    (∀ (url : ParsedUrl) s0 rest, url.domain = some "mangadex.org" →
      url.pathSegments = some (s0 :: rest) → s0 ≠ "chapter" →
      ChapterDownloadRequest.from_url url = .error (.UrlParseError url.toStr)) ∧
    (∀ url : ParsedUrl, url.domain = some "mangadex.org" →
      url.pathSegments = some ["chapter"] →
      ChapterDownloadRequest.from_url url = .error (.UrlParseError url.toStr)) := by
  refine ⟨fun id rest s => by simp [MangaQuery.from_url],
    fun url h => by simp [MangaQuery.from_url, h],
    fun url s0 rest hd hp hs => ?_,
    fun url hd hp => by simp [MangaQuery.from_url, hd, hp],
    fun id rest s => by simp [ChapterDownloadRequest.from_url],
    fun url h => by simp [ChapterDownloadRequest.from_url, h],
    fun url s0 rest hd hp hs => ?_,
    fun url hd hp => by simp [ChapterDownloadRequest.from_url, hd, hp]⟩
  · simp [MangaQuery.from_url, hd, hp, hs]
  · simp [ChapterDownloadRequest.from_url, hd, hp, hs]

/-- Concrete instances of `from_url_resolution`: the round-trip on a
"title" link, and failures on a foreign host, a "chapter" first segment
given to the manga resolver, and a missing identifier segment. -/
theorem from_url_resolution_witness :
    MangaQuery.from_url ⟨some "mangadex.org", some ["title", "abc", "x"], "u"⟩ =
      .ok (MangaQuery.new "abc") ∧
    MangaQuery.from_url ⟨some "mangapark.com", some ["title", "abc"], "u"⟩ =
      .error (.UrlParseError "u") ∧
    MangaQuery.from_url ⟨some "mangadex.org", some ["chapter", "abc"], "u"⟩ =
      .error (.UrlParseError "u") ∧
    MangaQuery.from_url ⟨some "mangadex.org", some ["title"], "u"⟩ =
      .error (.UrlParseError "u") ∧
    ChapterDownloadRequest.from_url
        ⟨some "mangadex.org", some ["chapter", "abc", "x"], "u"⟩ =
      .ok (ChapterDownloadRequest.new "abc") :=
  ⟨from_url_resolution.1 "abc" ["x"] "u",
    from_url_resolution.2.1 _ (by decide),
    from_url_resolution.2.2.1 _ "chapter" ["abc"] rfl rfl (by decide),
    from_url_resolution.2.2.2.1 _ rfl rfl,
    from_url_resolution.2.2.2.2.1 "abc" ["x"] "u"⟩

/-- Claim C6: filter precedence is first-non-empty-wins in the order
explicit volume list, explicit chapter list, chapter range, volume range
(the volume-range branch with both bounds absent is the select-all
default).  In particular, when an explicit chapter list is supplied the
range filters (and the volume list being empty) have no effect: the
selection equals the one produced by the chapter list alone. -/
theorem filter_precedence (args : Args) (mv : List Volume) :
    (args.volumes ≠ [] →
      selectChapters args mv =
        selectChapters ⟨[], args.volumes, none, none, none, none⟩ mv) ∧
    (args.volumes = [] → args.chapters ≠ [] →
      selectChapters args mv =
        selectChapters ⟨args.chapters, [], none, none, none, none⟩ mv) ∧
    (args.volumes = [] → args.chapters = [] →
      (args.min_chapter.isSome || args.max_chapter.isSome) = true →
      selectChapters args mv =
        selectChapters ⟨[], [], args.min_chapter, args.max_chapter, none, none⟩ mv) := by
  obtain ⟨cs, vols, minC, maxC, minV, maxV⟩ := args
  refine ⟨fun h1 => ?_, fun h1 h2 => ?_, fun h1 h2 h3 => ?_⟩
  · simp only [selectChapters] at *
    simp [h1]
  · simp only [selectChapters] at *
    simp [h1, h2]
  · simp only [selectChapters] at *
    simp_all

/-- Concrete instance of `filter_precedence`: with both an explicit
chapter list and a volume range supplied, the volume range is ignored. -/
theorem filter_precedence_witness :
    selectChapters
        ⟨[F32.finite 2], [], none, none, some (F32.finite 1), some (F32.finite 3)⟩
        [⟨some (F32.finite 7), 1, [⟨some (F32.finite 2), "a", 0, []⟩]⟩] =
      selectChapters ⟨[F32.finite 2], [], none, none, none, none⟩
        [⟨some (F32.finite 7), 1, [⟨some (F32.finite 2), "a", 0, []⟩]⟩] :=
  (filter_precedence
      ⟨[F32.finite 2], [], none, none, some (F32.finite 1), some (F32.finite 3)⟩
      [⟨some (F32.finite 7), 1, [⟨some (F32.finite 2), "a", 0, []⟩]⟩]).2.1
    rfl (by decide)

/-- Claim C2: the page-failure aggregation of `download_chapter`.  With
every page outcome realised (`join_all` awaits all siblings), the chapter
result is success when no page failed, and otherwise the first failure in
enumeration order (by original page index); the set of written page files
is exactly the set of successful indices, independent of the aggregate
outcome. -/
theorem page_failure_aggregation (rs : List (Except MangadexError Unit)) :
    ((∀ r ∈ rs, isErrB r = false) → aggregatePageResults rs = .ok ()) ∧
    (∀ (pre : List (Except MangadexError Unit)) e rest,
      rs = pre ++ .error e :: rest → (∀ r ∈ pre, isErrB r = false) →
      aggregatePageResults rs = .error e) ∧
    (∀ i, i ∈ writtenPages rs ↔ rs.get? i = some (.ok ())) := by
  refine ⟨fun h => ?_, fun pre e rest hsplit hpre => ?_, fun i => ?_⟩
  · unfold aggregatePageResults
    rw [List.find?_eq_none.mpr (fun x hx => by simp [h x hx])]
  · unfold aggregatePageResults
    subst hsplit
    rw [List.find?_append, List.find?_eq_none.mpr (fun x hx => by simp [hpre x hx])]
    simp [isErrB]
  · unfold writtenPages
    rw [List.mem_filter, List.mem_range]
    constructor
    · rintro ⟨_, hm⟩
      rcases hg : rs.get? i with _ | r
      · rw [hg] at hm
        simp at hm
      · rcases r with e | u
        · rw [hg] at hm
          simp at hm
        · rfl
    · intro hg
      have hlt : i < rs.length := by
        by_contra hge
        rw [List.get?_eq_none.mpr (Nat.le_of_not_lt hge)] at hg
        exact Option.noConfusion hg
      exact ⟨hlt, by rw [hg]⟩

/-- Concrete instance of `page_failure_aggregation`: the second page
fails, the third fails too; the chapter reports the second page's error
(first in enumeration order) and pages 0 and 3 are on disk. -/
theorem page_failure_aggregation_witness :
    aggregatePageResults
        [.ok (), .error (.RequestError "e1"), .error (.IoError "e2"), .ok ()] =
      .error (.RequestError "e1") ∧
    (0 ∈ writtenPages
        [.ok (), .error (.RequestError "e1"), .error (.IoError "e2"), .ok ()] ↔
      ([.ok (), .error (.RequestError "e1"), .error (.IoError "e2"),
        .ok ()] : List (Except MangadexError Unit)).get? 0 = some (.ok ())) ∧
    aggregatePageResults [.ok (), .ok ()] = .ok () :=
  ⟨(page_failure_aggregation _).2.1 [.ok ()] (.RequestError "e1")
      [.error (.IoError "e2"), .ok ()] rfl (by decide),
    (page_failure_aggregation _).2.2 0,
    (page_failure_aggregation [.ok (), .ok ()]).1 (by decide)⟩

/-- Claim C9 (spec-modelled: the tower `rate_limit` layer is not part of
src/): two chapter downloads issued through the throttle configured for 1
admission per 5 time units, each `call()` preceded by an awaited
`ready()`, start at least 5 time units apart (whatever the time `now2` at
which the second `ready()` is issued); and the decorator leaves `call()`
itself unchanged, so an in-flight download is never paused. -/
theorem rate_limit_pacing (t0 now2 : ℕ) :
    ((RateLimiter.init 1 5 t0).ready t0).1 = t0 ∧
    (((RateLimiter.init 1 5 t0).ready t0).2.ready now2).1 ≥
      ((RateLimiter.init 1 5 t0).ready t0).1 + 5 ∧
    (∀ (f : ChapterDownloadRequest → Except MangadexError Unit) req,
      throttledCall f req = f req) := by
  have h5 : ¬ (t0 + 5 ≤ t0) := by omega
  have h1 : (RateLimiter.init 1 5 t0).ready t0 = (t0, ⟨1, 5, t0, 1⟩) := by
    simp [RateLimiter.init, RateLimiter.ready, h5]
  refine ⟨by rw [h1], ?_, fun f req => rfl⟩
  rw [h1]
  simp only [RateLimiter.ready]
  split <;> [skip; split] <;> simp_all

/-- Refutation of claim C1 at a concrete input: a max-only chapter range
(`max_chapter = 10`, a bounded range) selects a chapter whose label is
absent, because the code substitutes the sentinel `-1.0` for an absent
label and `-1 ∈ [-∞, 10]`. -/
theorem absent_chapter_range_counterexample :
    (some (F32.finite 10)).isSome = true ∧
    (⟨none, "c1", 0, []⟩ : Chapter).chapter = none ∧
    selectChapters ⟨[], [], none, some (F32.finite 10), none, none⟩
        [⟨none, 1, [⟨none, "c1", 0, []⟩]⟩] = [⟨none, "c1", 0, []⟩] := by
  decide

/-- Claim C1 as amended: under a chapter-number range filter an
absent-label chapter is treated as having the sentinel label `-1.0`; it is
selected exactly when `-1` lies within the range (unspecified bounds
defaulting to `∓∞`), and in particular it is excluded whenever a specified
minimum bound exceeds `-1`. -/
theorem absent_chapter_range_amended (minC maxC : Option F32) (c : Chapter)
    (h : c.chapter = none) :
    chapterRangePred minC maxC c =
      ((minC.getD F32.negInf).le (F32.finite (-1)) &&
        (F32.finite (-1)).le (maxC.getD F32.inf)) ∧
    (∀ m : ℚ, minC = some (F32.finite m) → -1 < m →
      chapterRangePred minC maxC c = false) := by
  constructor
  · simp [chapterRangePred, h]
  · rintro m rfl hm
    have hnle : ¬ (m ≤ -1) := not_le.mpr hm
    simp [chapterRangePred, h, F32.le, hnle]

/-- Concrete instance of `absent_chapter_range_amended`: with a minimum
bound of `0` an absent-label chapter fails the range check. -/
theorem absent_chapter_range_amended_witness :
    chapterRangePred (some (F32.finite 0)) none ⟨none, "c", 0, []⟩ = false :=
  (absent_chapter_range_amended (some (F32.finite 0)) none ⟨none, "c", 0, []⟩
      rfl).2 0 rfl (by norm_num)

/-- Refutation of claim C8 at a concrete input: an explicit volume list
containing `+∞` (the user can pass "inf" on the command line) selects a
volume whose label is absent, because the code substitutes `+∞` for the
absent label and `∞ == ∞` holds. -/
theorem absent_volume_list_counterexample :
    (⟨none, 0, [⟨some (F32.finite 1), "c1", 0, []⟩]⟩ : Volume).volume = none ∧
    selectChapters ⟨[], [F32.inf], none, none, none, none⟩
        [⟨none, 0, [⟨some (F32.finite 1), "c1", 0, []⟩]⟩] =
      [⟨some (F32.finite 1), "c1", 0, []⟩] := by
  decide

/-- Claim C8 as amended: under an explicit volume-number list filter an
absent-label volume is selected exactly when the supplied list contains
`+∞`; for any list of finite values it is never selected. -/
theorem absent_volume_list_amended (l : List F32) (v : Volume)
    (h : v.volume = none) :
    (volumeListPred l v = true ↔ F32.inf ∈ l) ∧
    ((∀ e ∈ l, e.isFinite = true) → volumeListPred l v = false) := by
  have hiff : volumeListPred l v = true ↔ F32.inf ∈ l := by
    simp only [volumeListPred, f32Contains, h, Option.getD_none, List.any_eq_true]
    constructor
    · rintro ⟨e, hel, he⟩
      have : e = F32.inf := by cases e <;> simp [F32.beq] at he ⊢
      exact this ▸ hel
    · intro hm
      exact ⟨F32.inf, hm, rfl⟩
  refine ⟨hiff, fun hfin => ?_⟩
  cases hp : volumeListPred l v
  · rfl
  · have := hfin F32.inf (hiff.mp hp)
    simp [F32.isFinite] at this

/-- Concrete instance of `absent_volume_list_amended`: a finite volume
list never matches an absent-label volume. -/
theorem absent_volume_list_amended_witness :
    volumeListPred [F32.finite 1, F32.finite 2] ⟨none, 0, []⟩ = false :=
  (absent_volume_list_amended [F32.finite 1, F32.finite 2] ⟨none, 0, []⟩
      rfl).2 (by decide)

/-- Refutation of claim C4 at a concrete input: with 10 original-quality
pages and a single compressed page, a data-saver download names its one
page `page_00.jpg` — the padding width comes from the original `data`
list (10 entries, two digits), not from the chosen list (1 entry, whose
digit count would give `page_0.jpg`). -/
theorem padding_width_counterexample :
    pageFileNames
        ⟨"b", ⟨"h", ["1", "2", "3", "4", "5", "6", "7", "8", "9", "10"],
          ["a.jpg"]⟩⟩ true = ["page_00.jpg"] ∧
    (chosenPages
        ⟨"b", ⟨"h", ["1", "2", "3", "4", "5", "6", "7", "8", "9", "10"],
          ["a.jpg"]⟩⟩ true).length = 1 ∧
    (checkedIlog10 1).getD 0 + 1 = 1 ∧
    "page_00.jpg" ≠ "page_" ++ zeroPad 1 0 ++ ".jpg" := by
  have hlog10 : Nat.log 10 10 = 1 :=
    Nat.log_eq_of_pow_le_of_lt_pow (by norm_num) (by norm_num)
  have hw : paddingWidth
      ⟨"b", ⟨"h", ["1", "2", "3", "4", "5", "6", "7", "8", "9", "10"],
        ["a.jpg"]⟩⟩ = 2 := by
    unfold paddingWidth checkedIlog10
    norm_num [hlog10]
  refine ⟨?_, by decide, ?_, by decide⟩
  · unfold pageFileNames
    rw [hw]
    decide
  · unfold checkedIlog10
    norm_num [Nat.log_one_right]

/-- Claim C4 as amended: page `i` of the chosen quality list is written to
`page_` followed by `i` zero-padded to the decimal digit count of the
*original-quality* (`data`) list's length (minimum width 1, and for any
quality flag), with extension `.png` when the source filename contains
".png" and `.jpg` otherwise. -/
theorem page_file_naming_amended (cd : ChapterData) (ds : Bool) (i : ℕ)
    (x : String) (h : (chosenPages cd ds).get? i = some x) :
    (pageFileNames cd ds).get? i =
      some ("page_" ++
        zeroPad ((Nat.digits 10 cd.chapter.data.length).length.max 1) i ++
        (if listHasSub x.toList ['.', 'p', 'n', 'g'] then ".png" else ".jpg")) := by
  have hw : paddingWidth cd =
      (Nat.digits 10 cd.chapter.data.length).length.max 1 := by
    unfold paddingWidth checkedIlog10
    rcases Nat.eq_zero_or_pos cd.chapter.data.length with h0 | h0
    · simp [h0]
    · have hne : cd.chapter.data.length ≠ 0 := Nat.pos_iff_ne_zero.mp h0
      rw [if_neg hne, Nat.digits_len 10 _ (by norm_num) hne]
      simp [Nat.max_eq_left]
  unfold pageFileNames
  rw [List.get?_map, List.get?_enum, h]
  simp [pageFileName, extFor, hw]

/-- Concrete instance of `page_file_naming_amended`. -/
theorem page_file_naming_amended_witness :
    (pageFileNames ⟨"b", ⟨"h", ["p1"], ["a.png"]⟩⟩ true).get? 0 =
      some ("page_" ++
        zeroPad ((Nat.digits 10
          (⟨"b", ⟨"h", ["p1"], ["a.png"]⟩⟩ : ChapterData).chapter.data.length).length.max 1) 0 ++
        (if listHasSub "a.png".toList ['.', 'p', 'n', 'g'] then ".png"
          else ".jpg")) :=
  page_file_naming_amended ⟨"b", ⟨"h", ["p1"], ["a.png"]⟩⟩ true 0 "a.png" rfl

/-- Refutation of claim C7 at a concrete input: the raw label string
"NaN" is accepted by Rust's `f32` parser, so the deserializer yields a
present, non-finite (NaN) value rather than absence. -/
theorem nan_label_counterexample :
    deserialize_number_from_string "NaN" = some F32.nan ∧
    F32.nan.isFinite = false := by
  decide

/-- Claim C7 as amended: the label parser maps any string rejected by the
`f32` grammar to absence, and a present value can fail to be finite only
when the raw string is (up to sign and case) one of the special float
tokens `inf`/`infinity`/`nan` — e.g. "NaN" yields NaN.  (Finite values are
modelled as exact rationals; overflow of huge decimal literals to `∞` is
abstracted away.) -/
theorem parser_nonfinite_amended (raw : String) (v : F32)
    (h : deserialize_number_from_string raw = some v)
    (hnf : v.isFinite = false) :
    specialFloatToken raw = true := by
  unfold deserialize_number_from_string parseF32 parseBody at h
  unfold specialFloatToken
  simp only [String.toList] at h ⊢
  split at h
  · next hsp =>
    rcases hsp with h1 | h1 <;> simp [h1]
  · split at h
    · next hsp => simp [hsp]
    · rcases Option.map_eq_some'.mp h with ⟨q, _, rfl⟩
      simp [F32.isFinite] at hnf

/-- Concrete instance of `parser_nonfinite_amended`: "inf" parses to a
present non-finite value and is a special token. -/
theorem parser_nonfinite_amended_witness :
    specialFloatToken "inf" = true :=
  parser_nonfinite_amended "inf" F32.inf (by decide) rfl

/-! ### Properties of the chapter sort (claim C3) -/

/-- `compare` on the rationals is antisymmetric under `Ordering.swap`. -/
theorem compareRat_swap (a b : ℚ) : (compare a b).swap = compare b a :=
  Batteries.OrientedCmp.symm a b

/-- `total_cmp` is antisymmetric under `Ordering.swap`. -/
theorem F32.totalCmp_swap (a b : F32) : (a.totalCmp b).swap = b.totalCmp a := by
  cases a <;> cases b <;>
    first
      | rfl
      | exact compareRat_swap _ _

/-- `a` compares greater than `b` exactly when `b` compares less than
`a`. -/
theorem F32.totalCmp_gt_iff (a b : F32) :
    a.totalCmp b = .gt ↔ b.totalCmp a = .lt := by
  rw [← totalCmp_swap a b]
  cases a.totalCmp b <;> simp [Ordering.swap]

/-- Transitivity of not-greater for `total_cmp`. -/
theorem F32.totalCmp_trans (a b c : F32)
    (h1 : a.totalCmp b ≠ .gt) (h2 : b.totalCmp c ≠ .gt) :
    a.totalCmp c ≠ .gt := by
  cases a <;> cases b <;> cases c <;>
    simp_all [totalCmp, compare_gt_iff_gt, not_lt] <;>
    linarith

/-- The chapter comparator is antisymmetric: `gt` one way is `lt` the
other way. -/
theorem chapterCmp_gt_iff (x y : Chapter) :
    chapterCmp x y = .gt ↔ chapterCmp y x = .lt := by
  rcases hx : x.chapter with _ | a <;> rcases hy : y.chapter with _ | b <;>
    simp [chapterCmp, hx, hy]
  exact F32.totalCmp_gt_iff a b

/-- Transitivity of not-greater for the chapter comparator. -/
theorem chapterCmp_trans (x y z : Chapter)
    (h1 : chapterCmp x y ≠ .gt) (h2 : chapterCmp y z ≠ .gt) :
    chapterCmp x z ≠ .gt := by
  rcases hx : x.chapter with _ | a <;> rcases hy : y.chapter with _ | b <;>
    rcases hz : z.chapter with _ | c <;>
    simp_all [chapterCmp]
  exact F32.totalCmp_trans a b c h1 h2

/-- Stable insertion permutes: the result is the element consed on. -/
theorem insertStable_perm (cmp : Chapter → Chapter → Ordering) (x : Chapter)
    (l : List Chapter) : (insertStable cmp x l).Perm (x :: l) := by
  induction l with
  | nil => exact List.Perm.refl _
  | cons y ys ih =>
    unfold insertStable
    split
    · exact (ih.cons y).trans (List.Perm.swap x y ys)
    · exact List.Perm.refl _

/-- The stable sort is a permutation of its input. -/
theorem sortBy_perm (cmp : Chapter → Chapter → Ordering) (l : List Chapter) :
    (sortBy cmp l).Perm l := by
  induction l with
  | nil => exact List.Perm.refl _
  | cons x xs ih =>
    exact (insertStable_perm cmp x (sortBy cmp xs)).trans (ih.cons x)

/-- Membership in a stable insertion. -/
theorem mem_insertStable {cmp : Chapter → Chapter → Ordering} {x z : Chapter}
    {l : List Chapter} (h : z ∈ insertStable cmp x l) : z = x ∨ z ∈ l := by
  have := (insertStable_perm cmp x l).mem_iff.mp h
  simpa using this

/-- Stable insertion preserves sortedness (pairwise not-greater) for the
chapter comparator. -/
theorem insertStable_pairwise (x : Chapter) (l : List Chapter)
    (hl : l.Pairwise (fun a b => chapterCmp a b ≠ .gt)) :
    (insertStable chapterCmp x l).Pairwise (fun a b => chapterCmp a b ≠ .gt) := by
  induction l with
  | nil => simp [insertStable]
  | cons y ys ih =>
    rw [List.pairwise_cons] at hl
    obtain ⟨hy, hys⟩ := hl
    unfold insertStable
    split
    · next hlt =>
      rw [List.pairwise_cons]
      refine ⟨fun z hz => ?_, ih hys⟩
      rcases mem_insertStable hz with rfl | hzys
      · simp [hlt]
      · exact hy z hzys
    · next hnlt =>
      rw [List.pairwise_cons]
      have hxy : chapterCmp x y ≠ .gt := fun hg =>
        hnlt ((chapterCmp_gt_iff x y).mp hg)
      refine ⟨fun z hz => ?_, List.pairwise_cons.mpr ⟨hy, hys⟩⟩
      rcases List.mem_cons.mp hz with rfl | hzys
      · exact hxy
      · exact chapterCmp_trans x y z hxy (hy z hzys)

/-- The stable sort's output is sorted (pairwise not-greater). -/
theorem sortBy_pairwise (l : List Chapter) :
    (sortBy chapterCmp l).Pairwise (fun a b => chapterCmp a b ≠ .gt) := by
  induction l with
  | nil => simp [sortBy]
  | cons x xs ih => exact insertStable_pairwise x _ ih

/-- An absent-label chapter is inserted at the very front: no element
compares strictly below it. -/
theorem insertStable_none (x : Chapter) (hx : x.chapter = none)
    (l : List Chapter) : insertStable chapterCmp x l = x :: l := by
  cases l with
  | nil => rfl
  | cons y ys =>
    have hnlt : ¬ chapterCmp y x = .lt := by
      rcases hy : y.chapter with _ | b <;> simp [chapterCmp, hx, hy]
    simp [insertStable, hnlt]

/-- Stable insertion and the absent-label filter: an absent-label element
lands in front of the filtered list, a present-label element vanishes
from it. -/
theorem insertStable_filter_none (x : Chapter) (l : List Chapter) :
    (insertStable chapterCmp x l).filter (fun c => c.chapter.isNone) =
      if x.chapter.isNone then
        x :: l.filter (fun c => c.chapter.isNone)
      else l.filter (fun c => c.chapter.isNone) := by
  rcases hx : x.chapter with _ | a
  · rw [insertStable_none x hx l]
    simp [List.filter_cons, hx]
  · induction l with
    | nil => simp [insertStable, List.filter_cons, hx]
    | cons y ys ih =>
      unfold insertStable
      split
      · rw [List.filter_cons, List.filter_cons]
        simp only [hx] at ih ⊢
        simp only [Option.isNone_some, Bool.false_eq_true, if_false] at ih ⊢
        rw [ih]
      · simp [List.filter_cons, hx]

/-- The chapter sort keeps the absent-label chapters in their original
relative order (stability among equals). -/
theorem sortBy_filter_none (l : List Chapter) :
    (sortBy chapterCmp l).filter (fun c => c.chapter.isNone) =
      l.filter (fun c => c.chapter.isNone) := by
  induction l with
  | nil => rfl
  | cons x xs ih =>
    show (insertStable chapterCmp x (sortBy chapterCmp xs)).filter _ = _
    rw [insertStable_filter_none, ih]
    rcases hx : x.chapter with _ | a <;> simp [List.filter_cons, hx]

/-- Claim C3: `get_chapters` returns a permutation of the flattened
chapters in which every absent-label chapter precedes every present-label
chapter, the absent-label chapters keep their original relative order
(and are mutually equal under the comparator), and the present (finite)
labels appear in non-decreasing numeric order. -/
theorem get_chapters_ordering (vs : List Volume) :
    (getChapters vs).Perm (vs.flatMap Volume.chapters) ∧
    (getChapters vs).Pairwise (fun a b => chapterCmp a b ≠ .gt) ∧
    (getChapters vs).Pairwise (fun a b => b.chapter = none → a.chapter = none) ∧
    (getChapters vs).Pairwise (fun a b => ∀ qa qb,
      a.chapter = some (F32.finite qa) → b.chapter = some (F32.finite qb) →
      qa ≤ qb) ∧
    (getChapters vs).filter (fun c => c.chapter.isNone) =
      (vs.flatMap Volume.chapters).filter (fun c => c.chapter.isNone) := by
  unfold getChapters
  have hpw := sortBy_pairwise (vs.flatMap Volume.chapters)
  refine ⟨sortBy_perm chapterCmp _, hpw, ?_, ?_, sortBy_filter_none _⟩
  · refine hpw.imp ?_
    intro a b hab hbnone
    rcases ha : a.chapter with _ | fa
    · rfl
    · exact absurd (by simp [chapterCmp, ha, hbnone]) hab
  · refine hpw.imp ?_
    intro a b hab qa qb ha hb
    by_contra hgt
    push_neg at hgt
    exact hab (by simp [chapterCmp, ha, hb, F32.totalCmp, compare_gt_iff_gt.mpr hgt])
